import Mathlib

/-!
# Verification of the gram-mitra plant-disease diagnostic engine

Shallow embedding of `src/json_graph_connector.py` and
`src/diagnostic_system_json.py`.

Modelling conventions:
* Python strings are lists of characters (`Str`).
* Python floats arising from integer division are modelled as exact
  rationals.  Because the kernel cannot reduce the field operations of `ℚ`,
  the embedding computes with `mkRat`-based operations (`ratAdd`, `ratSub`,
  `ratMul`); the lemmas `ratAdd_eq`, `ratSub_eq`, `ratMul_eq` and
  `mkRat_eq_natDiv` prove that they are exactly rational addition,
  subtraction, multiplication and division.
* Python `set` values are lists used only through membership, insertion
  of absent elements and size.
* The external HTTP text-generation call is abstracted as an
  `Except Str Str` outcome: `.ok` carries the response payload, `.error`
  carries the string rendering of the raised exception.
-/

/-- Python strings, modelled as lists of characters. -/
abbrev Str := List Char

/-- The ASCII whitespace characters recognised by Python's `str.strip()`
and by the regex class `\s`. -/
def isPySpace (c : Char) : Bool :=
  c = ' ' || c = '\t' || c = '\n' || c = '\r' || c = '\x0b' || c = '\x0c'

/-- The punctuation characters stripped by `_clean_symptom_text`
(`strip('.,;:!?')`). -/
def isPunctCh (c : Char) : Bool :=
  c = '.' || c = ',' || c = ';' || c = ':' || c = '!' || c = '?'

/-- Remove characters satisfying `p` from the start of the string. -/
def stripLeft (p : Char → Bool) (s : Str) : Str := s.dropWhile p

/-- Remove characters satisfying `p` from the end of the string. -/
def stripRight (p : Char → Bool) (s : Str) : Str := (s.reverse.dropWhile p).reverse

/-- Python `str.strip()` with the given character class: both ends. -/
def stripBoth (p : Char → Bool) (s : Str) : Str := stripRight p (stripLeft p s)

/-- Python `str.strip()` (whitespace). -/
def stripWs (s : Str) : Str := stripBoth isPySpace s

/-- Python `str.strip('.,;:!?')`. -/
def stripPunct (s : Str) : Str := stripBoth isPunctCh s

/-- Python `str.lower()` (ASCII letters). -/
def lowerStr (s : Str) : Str := s.map Char.toLower

/-- `re.sub(r'\s+', ' ', s)`: every maximal whitespace run becomes a
single `' '`. -/
def collapseWs : Str → Str
  | [] => []
  | [c] => if isPySpace c then [' '] else [c]
  | c :: c' :: rest =>
    if isPySpace c then
      if isPySpace c' then collapseWs (c' :: rest)
      else ' ' :: collapseWs (c' :: rest)
    else c :: collapseWs (c' :: rest)

/-- `JSONGraphConnector._clean_symptom_text`: strip surrounding whitespace,
then surrounding punctuation, collapse whitespace runs, lower-case.
The empty string is returned unchanged (`if not text: return ""`). -/
def cleanSymptomText (s : Str) : Str :=
  if s = [] then []
  else lowerStr (collapseWs (stripPunct (stripWs s)))

/-- Helper of `splitWs`: accumulates the current word (reversed). -/
def splitWsGo : Str → Str → List Str
  | [], acc => if acc = [] then [] else [acc.reverse]
  | c :: rest, acc =>
    if isPySpace c then
      if acc = [] then splitWsGo rest []
      else acc.reverse :: splitWsGo rest []
    else splitWsGo rest (c :: acc)

/-- Python `str.split()` with no argument: split on whitespace runs,
discarding empty fragments. -/
def splitWs (s : Str) : List Str := splitWsGo s []

/-- The stop-word set removed before the word-overlap test. -/
def stopWords : Finset Str :=
  (["on", "the", "of", "in", "at", "with", "and", "or", "a", "an"].map String.data).toFinset

/-- Python substring containment `a in b`. -/
def isSubstr (a b : Str) : Bool := decide (a <:+: b)

/-- The word set of one side of the overlap test:
`set(s.split()) - stop_words`. -/
def wordSet (s : Str) : Finset Str := (splitWs s).toFinset \ stopWords

/-- Rational division of two naturals, used to model Python float division
of non-negative integers (see `mkRat_eq_natDiv`). -/
def natDivQ (a b : ℕ) : ℚ := mkRat a b

/-- The word-overlap (Jaccard) test of `_symptoms_match`:
`len(intersection) / len(union) > 0.5`. -/
def wordOverlapGt (uw dw : Finset Str) : Bool :=
  decide (natDivQ (uw ∩ dw).card (uw ∪ dw).card > mkRat 1 2)

/-- The keyword-synonym table of `_symptoms_match`. -/
def symptomKeywords : List (Str × List Str) :=
  [("yellow".data, ["yellowing", "chlorosis"].map String.data),
   ("brown".data, ["browning", "necrosis"].map String.data),
   ("wilt".data, ["wilting", "drooping"].map String.data),
   ("spot".data, ["spots", "lesions", "patches"].map String.data),
   ("dry".data, ["drying", "dried", "dessication"].map String.data),
   ("rot".data, ["rotting", "decay", "decomposition"].map String.data),
   ("stunt".data, ["stunted", "stunting", "dwarf"].map String.data)]

/-- One iteration of the keyword loop of `_symptoms_match`: the first
disjunct is the `keyword in user_symptom` branch, the second the
`any(syn in user_symptom)` branch. -/
def keywordEntryHit (k : Str) (syns : List Str) (u d : Str) : Bool :=
  (isSubstr k u && (syns.any (fun s => isSubstr s d) || isSubstr k d)) ||
  (syns.any (fun s => isSubstr s u) && (isSubstr k d || syns.any (fun s => isSubstr s d)))

/-- The whole keyword loop: it returns `True` on the first hit, which for a
side-effect-free body is `any` over the table. -/
def keywordCheck (u d : Str) : Bool :=
  symptomKeywords.any (fun e => keywordEntryHit e.1 e.2 u d)

/-- `JSONGraphConnector._symptoms_match` applied to the already
lowered/stripped arguments.  The Python body is a chain of early
returns of constants; this is the equivalent disjunction, in evaluation
order: exact equality, substring in either direction, and, when neither
word set is emptied by stop-word removal, the Jaccard test followed by
the keyword table. -/
def symptomsMatchCore (u d : Str) : Bool :=
  decide (u = d) ||
  (isSubstr u d || isSubstr d u) ||
  (!(decide (wordSet u = ∅) || decide (wordSet d = ∅)) &&
   (wordOverlapGt (wordSet u) (wordSet d) || keywordCheck u d))

/-- `JSONGraphConnector._symptoms_match`: both arguments are first
lower-cased and whitespace-stripped. -/
def symptomsMatch (u d : Str) : Bool :=
  symptomsMatchCore (stripWs (lowerStr u)) (stripWs (lowerStr d))

/-- Rational subtraction computed through `mkRat` so that the kernel can
evaluate it (see `ratSub_eq`). -/
def ratSub (a b : ℚ) : ℚ := mkRat (a.num * b.den - b.num * a.den) (a.den * b.den)

/-- Rational addition computed through `mkRat` (see `ratAdd_eq`). -/
def ratAdd (a b : ℚ) : ℚ := mkRat (a.num * b.den + b.num * a.den) (a.den * b.den)

/-- Rational multiplication computed through `mkRat` (see `ratMul_eq`). -/
def ratMul (a b : ℚ) : ℚ := mkRat (a.num * b.num) (a.den * b.den)

/-- A graph node.  `node.get('name', '')` / `node.get('description', '')`
default to the empty string; the optional solution fields model
`node.get('treatment')` etc., which are `None` when the key is absent. -/
structure GNode where
  id : Str
  type : Str
  name : Str := []
  description : Str := []
  treatment : Option Str := none
  content : Option Str := none
  instructions : Option Str := none
deriving DecidableEq

/-- A relationship record with its `source`, `target` and `type` fields. -/
structure GRel where
  source : Str
  target : Str
  type : Str
deriving DecidableEq

/-- The in-memory graph snapshot: ordered node and relationship lists. -/
structure Graph where
  nodes : List GNode
  relationships : List GRel
deriving DecidableEq

/-- `nodes_by_id` lookup: the dict comprehension lets a later node with the
same id overwrite an earlier one. -/
def nodeById (g : Graph) (i : Str) : Option GNode :=
  g.nodes.reverse.find? (fun n => decide (n.id = i))

/-- `nodes_by_type` index lookup: all nodes of the given type, in graph
order. -/
def nodesByType (g : Graph) (t : Str) : List GNode :=
  g.nodes.filter (fun n => decide (n.type = t))

/-- `relationships_by_source` index lookup: a relationship is indexed only
when its `source` is truthy (non-empty). -/
def relsFromSource (g : Graph) (i : Str) : List GRel :=
  g.relationships.filter (fun r => decide (r.source = i) && decide (r.source ≠ []))

/-- The recognised symptom-linking relationship kinds. -/
def symptomLinkKinds : List Str :=
  ["HAS_SYMPTOM", "MANIFESTS_AS", "SHOWS", "EXHIBITS"].map String.data

/-- Disease nodes: the loop `for node_type in ['Disease', 'PlantDisease']`
concatenates the two type indices in graph order. -/
def diseaseNodes (g : Graph) : List GNode :=
  nodesByType g "Disease".data ++ nodesByType g "PlantDisease".data

/-- The `all_disease_symptoms` list gathered for one disease node id,
before duplicate removal: cleaned non-empty names of existing `Symptom`
targets of recognised relationships. -/
def gatherSymptomsRaw (g : Graph) (did : Str) : List Str :=
  (relsFromSource g did).filterMap (fun r =>
    if r.type ∈ symptomLinkKinds then
      (nodeById g r.target).bind (fun t =>
        if t.type = "Symptom".data then
          if t.name ≠ [] then
            if cleanSymptomText t.name ≠ [] then some (cleanSymptomText t.name) else none
          else none
        else none)
    else none)

/-- One row of `find_diseases_by_symptoms`. -/
structure DiseaseResult where
  disease : Str
  description : Str
  all_symptoms : List Str
  matched : List Str
  match_count : ℕ
  total_symptoms : ℕ
  match_percentage : ℚ
deriving DecidableEq

/-- The sort key of `find_diseases_by_symptoms`:
`(match_percentage, match_count)` compared as Python compares tuples. -/
def rankKey (r : DiseaseResult) : Lex (ℚ × ℕ) := toLex (r.match_percentage, r.match_count)

/-- `a` may precede `b` in the descending ranking order. -/
def rankRel (a b : DiseaseResult) : Prop := rankKey b ≤ rankKey a

instance : DecidableRel rankRel :=
  fun a b => inferInstanceAs (Decidable (rankKey b ≤ rankKey a))

instance : IsTotal DiseaseResult rankRel :=
  ⟨fun a b => le_total (rankKey b) (rankKey a)⟩

instance : IsTrans DiseaseResult rankRel :=
  ⟨fun _ _ _ h1 h2 => le_trans h2 h1⟩

/-- The body of the disease loop of `find_diseases_by_symptoms` for one
disease node: gather and deduplicate its symptoms, record the first
fuzzy hit for every user symptom, and build the result row when at
least one user symptom matched. -/
def diseaseCandidate (g : Graph) (symptomsLower : List Str) (dn : GNode) :
    Option DiseaseResult :=
  let allSyms := (gatherSymptomsRaw g dn.id).dedup
  let matched := symptomsLower.filterMap
    (fun u => allSyms.find? (fun ds => symptomsMatch u ds))
  if matched ≠ [] then
    some { disease := dn.name, description := dn.description,
           all_symptoms := allSyms, matched := matched,
           match_count := matched.length,
           total_symptoms := max allSyms.length 1,
           match_percentage := natDivQ matched.length (max allSyms.length 1) }
  else none

/-- `JSONGraphConnector.find_diseases_by_symptoms`.  Python's stable
`sort(key=..., reverse=True)` is a stable descending sort, which is what
`List.insertionSort rankRel` computes. -/
def findDiseasesBySymptoms (g : Graph) (symptoms : List Str) : List DiseaseResult :=
  if symptoms = [] then []
  else
    let symptomsLower := symptoms.map (fun s => cleanSymptomText (lowerStr s))
    let results := (diseaseNodes g).filterMap (diseaseCandidate g symptomsLower)
    (List.insertionSort rankRel results).take 10

/-- `PlantDiseaseDignosticSystemGraphDirect.find_diseases_by_symptoms`:
the engine-level wrapper renames the row fields unchanged and caps the
list at 8. -/
def engineFindDiseases (g : Graph) (symptoms : List Str) : List DiseaseResult :=
  if symptoms = [] then [] else (findDiseasesBySymptoms g symptoms).take 8

/-- `PlantDiseaseDignosticSystemGraphDirect.should_diagnose`.  The float
thresholds 0.20, 0.70, 0.10 and 0.60 are modelled as exact rationals. -/
def shouldDiagnose (g : Graph) (confirmed : List Str) : Option DiseaseResult :=
  if confirmed = [] ∨ confirmed.length < 2 then none
  else
    match engineFindDiseases g confirmed with
    | [] => none
    | [top] => some top
    | top :: second :: _ =>
      if ratSub top.match_percentage second.match_percentage > mkRat 1 5 ∨
         (top.match_percentage > mkRat 7 10 ∧
          ratSub top.match_percentage second.match_percentage > mkRat 1 10) then
        some top
      else if 3 ≤ top.match_count ∧ mkRat 3 5 ≤ top.match_percentage then some top
      else none

/-- One row of `find_differentiating_symptoms`.  `diseases` is the set of
exhibiting disease names (kept without duplicates), `count` its size. -/
structure DiffResult where
  symptom : Str
  diseases : List Str
  count : ℕ
deriving DecidableEq

/-- `symptom_disease_map[clean_symptom].add(disease_name)`: a
`defaultdict(set)` with insertion-ordered keys; the value set ignores a
name it already holds. -/
def mapAdd (m : List (Str × List Str)) (key dname : Str) : List (Str × List Str) :=
  match m with
  | [] => [(key, [dname])]
  | (k, v) :: rest =>
    if k = key then (k, if dname ∈ v then v else v ++ [dname]) :: rest
    else (k, v) :: mapAdd rest key dname

/-- The sort order of `find_differentiating_symptoms`:
ascending by `(-count, symptom)`, Python string order on the symptom. -/
def diffRel (a b : DiffResult) : Prop :=
  toLex (-(a.count : ℤ), a.symptom) ≤ toLex (-(b.count : ℤ), b.symptom)

instance : DecidableRel diffRel :=
  fun a b =>
    inferInstanceAs (Decidable (toLex (-(a.count : ℤ), a.symptom) ≤ toLex (-(b.count : ℤ), b.symptom)))

instance : IsTotal DiffResult diffRel :=
  ⟨fun a b => le_total (toLex (-(a.count : ℤ), a.symptom)) (toLex (-(b.count : ℤ), b.symptom))⟩

instance : IsTrans DiffResult diffRel :=
  ⟨fun _ _ _ h1 h2 => le_trans h1 h2⟩

/-- The body of the relationship loop of `find_differentiating_symptoms`
for one disease node: accumulate gathered, non-excluded symptoms into the
association map. -/
def diffSymptomOf (g : Graph) (excludedLower : List Str) (r : GRel) : Option Str :=
  if r.type ∈ symptomLinkKinds then
    (nodeById g r.target).bind (fun t =>
      if t.type = "Symptom".data then
        if t.name ≠ [] then
          if cleanSymptomText t.name ≠ [] ∧ cleanSymptomText t.name ∉ excludedLower then
            if excludedLower.any (fun e => symptomsMatch (cleanSymptomText t.name) e) then none
            else some (cleanSymptomText t.name)
          else none
        else none
      else none)
  else none

/-- One relationship step of the gathering loop: when the relationship
yields a usable, non-excluded symptom, record the disease name under
that symptom key. -/
def diffGatherStep (g : Graph) (excludedLower : List Str) (dn : GNode)
    (m : List (Str × List Str)) (r : GRel) : List (Str × List Str) :=
  match diffSymptomOf g excludedLower r with
  | some c => mapAdd m c dn.name
  | none => m

/-- `JSONGraphConnector.find_differentiating_symptoms`. -/
def findDifferentiatingSymptoms (g : Graph) (diseaseNames excludedSymptoms : List Str) :
    List DiffResult :=
  if diseaseNames = [] then []
  else
    let excludedLower := excludedSymptoms.map (fun s => cleanSymptomText (lowerStr s))
    let dNodes := (diseaseNodes g).filter (fun n => decide (n.name ∈ diseaseNames))
    let m := dNodes.foldl
      (fun m dn => (relsFromSource g dn.id).foldl (diffGatherStep g excludedLower dn) m) []
    let results := m.map (fun p => { symptom := p.1, diseases := p.2, count := p.2.length })
    (List.insertionSort diffRel results).take 20

/-- The conditions under which the gathering loop of
`find_differentiating_symptoms` can have added a symptom key `k` for one
of the disease nodes `ds`: the key is non-empty, not literally excluded,
fuzzily matches no cleaned exclusion member, and is the cleaned name of
an existing `Symptom` target of a recognised relationship leaving one of
the nodes. -/
def diffKeySource (g : Graph) (ds : List GNode) (excludedLower : List Str) (k : Str) : Prop :=
  k ≠ [] ∧ k ∉ excludedLower ∧ (∀ e ∈ excludedLower, symptomsMatch k e = false) ∧
  ∃ dn ∈ ds, ∃ r ∈ g.relationships, r.source = dn.id ∧ r.source ≠ [] ∧
    r.type ∈ symptomLinkKinds ∧
    ∃ t, nodeById g r.target = some t ∧ t.type = "Symptom".data ∧ t.name ≠ [] ∧
      cleanSymptomText t.name = k

/-- The exclusion list built by
`find_best_differentiating_symptom_from_graph`:
`symptom.lower().strip()` of every confirmed, ruled-out and asked
symptom. -/
def allExcludedOf (confirmed ruledOut asked : List Str) : List Str :=
  (confirmed ++ ruledOut ++ asked).map (fun s => stripWs (lowerStr s))

/-- The differentiation score of one candidate symptom:
`num_with = len(set(diseases))`, `num_without = len(disease_names) - num_with`;
0 when either side is empty, otherwise
`min(num_with, num_without) + num_with * 0.1`. -/
def diffScore (numNames : ℕ) (r : DiffResult) : ℚ :=
  let w : ℤ := r.diseases.length
  let wo : ℤ := (numNames : ℤ) - w
  if w = 0 ∨ wo = 0 then 0
  else ratAdd ((min w wo : ℤ) : ℚ) (ratMul (w : ℚ) (mkRat 1 10))

/-- One iteration of the best-candidate loop of
`find_best_differentiating_symptom_from_graph`: skip symptoms in the
exclusion list, keep a strictly improving score. -/
def bestStep (numNames : ℕ) (allExcluded : List Str) (acc : Option DiffResult × ℚ)
    (r : DiffResult) : Option DiffResult × ℚ :=
  if stripWs (lowerStr r.symptom) ∈ allExcluded then acc
  else if diffScore numNames r > acc.2 then (some r, diffScore numNames r) else acc

/-- The best-candidate loop of
`find_best_differentiating_symptom_from_graph`: starting from
`best_symptom = None`, `best_score = 0`. -/
def bestSymptomFold (numNames : ℕ) (allExcluded : List Str) (results : List DiffResult) :
    Option DiffResult × ℚ :=
  results.foldl (bestStep numNames allExcluded) (none, 0)

/-- `PlantDiseaseDignosticSystemGraphDirect.find_best_differentiating_symptom_from_graph`
with the current possible-disease list and the three exclusion sets as
explicit inputs. -/
def findBestSymptom (g : Graph) (possible : List DiseaseResult)
    (confirmed ruledOut asked : List Str) : Option Str :=
  if possible = [] then none
  else
    let dNames := (possible.take 5).map (fun d => d.disease)
    let allEx := allExcludedOf confirmed ruledOut asked
    let results := findDifferentiatingSymptoms g dNames allEx
    if results = [] then none
    else
      match (bestSymptomFold dNames.length allEx results).1 with
      | some r => some r.symptom
      | none => none

/-- One row of `get_solutions_for_disease`. -/
structure SolutionResult where
  solution_name : Str
  solution_description : Str
  treatment : Str
deriving DecidableEq

/-- Python `a or b or c or fallback` over optional / possibly empty string
fields: the first truthy value. -/
def firstTruthy (opts : List (Option Str)) (fallback : Str) : Str :=
  match opts with
  | [] => fallback
  | some v :: rest => if v ≠ [] then v else firstTruthy rest fallback
  | none :: rest => firstTruthy rest fallback

/-- The recognised solution-linking relationship kinds, on the lowered
type: contains `solution` or `treatment`, or equals `has_solution` or
`treated_by`. -/
def solutionKindOk (relType : Str) : Bool :=
  isSubstr "solution".data (lowerStr relType) ||
  isSubstr "treatment".data (lowerStr relType) ||
  decide (lowerStr relType = "has_solution".data) ||
  decide (lowerStr relType = "treated_by".data)

/-- `JSONGraphConnector.get_solutions_for_disease`: exact disease-name
match, then every recognised relationship to an existing `Solution` node
with a truthy name yields a row. -/
def getSolutionsForDisease (g : Graph) (diseaseName : Str) : List SolutionResult :=
  match (diseaseNodes g).find? (fun n => decide (n.name = diseaseName)) with
  | none => []
  | some dn =>
    (relsFromSource g dn.id).filterMap (fun r =>
      if solutionKindOk r.type then
        (nodeById g r.target).bind (fun t =>
          if t.type = "Solution".data then
            if t.name ≠ [] then
              some { solution_name := t.name, solution_description := t.description,
                     treatment := firstTruthy [t.treatment, t.content, t.instructions] t.name }
            else none
          else none)
      else none)

/-- The conversation-state fields of
`PlantDiseaseDignosticSystemGraphDirect` relevant to a turn.  The Python
sets are modelled as duplicate-free lists in insertion order. -/
structure EngineState where
  confirmed : List Str
  ruledOut : List Str
  asked : List Str
  lastAsked : Option Str
deriving DecidableEq

/-- Python `set.add`: a no-op when the element is already present. -/
def pySetAdd (s : List Str) (x : Str) : List Str := if x ∈ s then s else s ++ [x]

/-- The classification produced by `parse_response`. -/
inductive ReplyKind where
  | confirmedReply
  | deniedReply
  | newSymptom
deriving DecidableEq

/-- The confirmation keywords of `parse_response`. -/
def confirmWords : List Str := ["yes", "y", "yeah", "definitely", "observed"].map String.data

/-- The denial keywords of `parse_response`. -/
def denyWords : List Str := ["no", "n", "nope", "not", "never", "absent"].map String.data

/-- `PlantDiseaseDignosticSystemGraphDirect.parse_response`: substring
tests on the lower-cased, stripped input, confirmation first. -/
def parseResponse (input : Str) : ReplyKind :=
  let lower := stripWs (lowerStr input)
  if confirmWords.any (fun w => isSubstr w lower) then .confirmedReply
  else if denyWords.any (fun w => isSubstr w lower) then .deniedReply
  else .newSymptom

/-- The possible outcomes of one `process_user_input` turn, before the
outcome text is rendered: the four diagnosing returns, a follow-up
question, and the ask-for-more-symptoms prompt. -/
inductive TurnOutcome where
  | immediateDiag (d : DiseaseResult)
  | completeDiag (d : DiseaseResult)
  | forcedDiag (d : DiseaseResult)
  | question (s : Str)
  | finalDiag (d : DiseaseResult)
  | needMore
deriving DecidableEq

/-- Whether the outcome is a follow-up question (the session stays in
collection mode with a pending asked symptom). -/
def TurnOutcome.isQuestion : TurnOutcome → Bool
  | .question _ => true
  | _ => false

/-- Whether the outcome emits a diagnosis (any of the four diagnosing
returns of `process_user_input`). -/
def TurnOutcome.isDiagnosis : TurnOutcome → Bool
  | .immediateDiag _ => true
  | .completeDiag _ => true
  | .forcedDiag _ => true
  | .finalDiag _ => true
  | _ => false

/-- Whether the outcome is the turn-1 `IMMEDIATE DIAGNOSIS!` return,
produced only when `should_diagnose` fires on the first turn. -/
def TurnOutcome.isImmediateDiag : TurnOutcome → Bool
  | .immediateDiag _ => true
  | _ => false

/-- Whether the outcome is the `FINAL DIAGNOSIS!` return of the
no-more-questions fallback path. -/
def TurnOutcome.isFinalDiag : TurnOutcome → Bool
  | .finalDiag _ => true
  | _ => false

/-- The diagnosed disease name carried by a diagnosing outcome. -/
def TurnOutcome.diagName : TurnOutcome → Option Str
  | .immediateDiag d => some d.disease
  | .completeDiag d => some d.disease
  | .forcedDiag d => some d.disease
  | .finalDiag d => some d.disease
  | _ => none

/-- The shared tail of `process_user_input` (lines 339-367): ask the next
differentiating symptom, otherwise force a final diagnosis on the top
candidate, otherwise ask for more information. -/
def continueTurn (g : Graph) (st : EngineState) (possible : List DiseaseResult) :
    TurnOutcome × EngineState :=
  match findBestSymptom g possible st.confirmed st.ruledOut st.asked with
  | some s =>
    (.question s, { st with lastAsked := some s, asked := pySetAdd st.asked (lowerStr s) })
  | none =>
    match possible with
    | top :: _ => (.finalDiag top, st)
    | [] => (.needMore, st)

/-- The first user turn of `process_user_input`: the stripped input is
lower-cased into the fresh confirmed set, diseases are ranked, and
`should_diagnose` is consulted before falling through to the shared
tail. -/
def firstTurn (g : Graph) (rawInput : Str) : TurnOutcome × EngineState :=
  let input := stripWs rawInput
  let st : EngineState :=
    { confirmed := [lowerStr input], ruledOut := [], asked := [], lastAsked := none }
  let possible := engineFindDiseases g st.confirmed
  match shouldDiagnose g st.confirmed with
  | some d => (.immediateDiag d, st)
  | none => continueTurn g st possible

/-- The set update of a follow-up turn of `process_user_input`: a
confirmation or denial moves the pending `last_asked` symptom, anything
else is recorded as a new confirmed symptom. -/
def updateState (st : EngineState) (input : Str) : EngineState :=
  match parseResponse input with
  | .confirmedReply =>
    match st.lastAsked with
    | some a => { st with confirmed := pySetAdd st.confirmed (lowerStr a) }
    | none => st
  | .deniedReply =>
    match st.lastAsked with
    | some a => { st with ruledOut := pySetAdd st.ruledOut (lowerStr a) }
    | none => st
  | .newSymptom => { st with confirmed := pySetAdd st.confirmed (lowerStr input) }

/-- The decision part of a follow-up turn, after the set update: re-rank,
consult `should_diagnose`, apply the 4-confirmed-symptoms forced stop
(which needs a non-empty candidate list), then fall through to the
shared tail. -/
def turnAfterUpdate (g : Graph) (st1 : EngineState) : TurnOutcome × EngineState :=
  let possible := engineFindDiseases g st1.confirmed
  match shouldDiagnose g st1.confirmed with
  | some d => (.completeDiag d, st1)
  | none =>
    match possible with
    | top :: rest =>
      if 4 ≤ st1.confirmed.length then (.forcedDiag top, st1)
      else continueTurn g st1 (top :: rest)
    | [] => continueTurn g st1 []

/-- A follow-up turn of `process_user_input`. -/
def subsequentTurn (g : Graph) (st : EngineState) (rawInput : Str) :
    TurnOutcome × EngineState :=
  turnAfterUpdate g (updateState st (stripWs rawInput))

/-- `OllamaGemmaConnector.generate_summary`: the whole HTTP interaction
(request, status check, JSON field access, `.strip()`) sits inside one
`try`; any raised exception `e` is caught and rendered as
`"Error generating summary: " + str(e)`. -/
def generateSummary (llmResult : Except Str Str) : Str :=
  match llmResult with
  | .ok body => stripWs body
  | .error e => "Error generating summary: ".data ++ e

/-- `PlantDiseaseDignosticSystemGraphDirect.format_question`. -/
def formatQuestion (symptom : Str) : Str :=
  if symptom = [] then "Please describe any other symptoms you observe.".data
  else
    let s := lowerStr (stripWs symptom)
    if (["soil", "ground", "environment"].map String.data).any (fun w => isSubstr w s) then
      "Do you observe ".data ++ s ++ " around the plant?".data
    else if (["stress", "condition", "temperature"].map String.data).any
        (fun w => isSubstr w s) then
      "Is the plant showing signs of ".data ++ s ++ "?".data
    else if decide ("dry".data <+: s) ∨ decide ("wet".data <+: s) then
      "Are there ".data ++ s ++ " conditions affecting the plant?".data
    else
      "Do you observe ".data ++ s ++ " on the plant?".data

/-- The string returned to the user for a turn outcome, given the
text-generation result for the diagnosing outcomes. -/
def renderOutcome (out : TurnOutcome) (llmResult : Except Str Str) : Str :=
  match out with
  | .immediateDiag _ => "🏆 IMMEDIATE DIAGNOSIS!\n\n".data ++ generateSummary llmResult
  | .completeDiag _ => "🏆 DIAGNOSIS COMPLETE!\n\n".data ++ generateSummary llmResult
  | .forcedDiag _ => "🏆 DIAGNOSIS (Analysis Complete)!\n\n".data ++ generateSummary llmResult
  | .question s => formatQuestion s
  | .finalDiag _ => "🏆 FINAL DIAGNOSIS!\n\n".data ++ generateSummary llmResult
  | .needMore => "I need more information. Please describe any other symptoms you observe.".data

/-- The canonical sample graph written by `create_sample_json_graph`:
three diseases, five symptoms, three solutions, nine relationships. -/
def sampleGraph : Graph :=
  { nodes :=
      [{ id := "disease_1".data, type := "Disease".data,
         name := "Bacterial Leaf Spot".data,
         description := "A bacterial infection causing dark spots on leaves".data },
       { id := "disease_2".data, type := "Disease".data,
         name := "Iron Chlorosis".data,
         description := "Nutrient deficiency causing yellowing of leaves".data },
       { id := "disease_3".data, type := "Disease".data,
         name := "Powdery Mildew".data,
         description := "Fungal infection causing white powdery coating".data },
       { id := "symptom_1".data, type := "Symptom".data,
         name := "brown spots".data,
         description := "Dark brown or black spots on leaf surface".data },
       { id := "symptom_2".data, type := "Symptom".data,
         name := "yellowing leaves".data,
         description := "Leaves turning yellow, often starting from edges".data },
       { id := "symptom_3".data, type := "Symptom".data,
         name := "white powdery coating".data,
         description := "White dusty substance on leaf surfaces".data },
       { id := "symptom_4".data, type := "Symptom".data,
         name := "leaf drop".data,
         description := "Premature falling of leaves".data },
       { id := "symptom_5".data, type := "Symptom".data,
         name := "stunted growth".data,
         description := "Reduced plant growth and development".data },
       { id := "solution_1".data, type := "Solution".data,
         name := "Copper Fungicide".data,
         description := "Copper-based spray for bacterial control".data,
         treatment := some "Apply copper fungicide every 7-10 days until symptoms improve".data },
       { id := "solution_2".data, type := "Solution".data,
         name := "Iron Supplement".data,
         description := "Iron chelate fertilizer for chlorosis".data,
         treatment := some "Apply iron chelate to soil according to package directions".data },
       { id := "solution_3".data, type := "Solution".data,
         name := "Fungicide Spray".data,
         description := "Anti-fungal treatment for mildew".data,
         treatment := some "Spray affected areas with fungicide weekly".data }],
    relationships :=
      [{ source := "disease_1".data, target := "symptom_1".data, type := "HAS_SYMPTOM".data },
       { source := "disease_1".data, target := "symptom_4".data, type := "HAS_SYMPTOM".data },
       { source := "disease_2".data, target := "symptom_2".data, type := "HAS_SYMPTOM".data },
       { source := "disease_2".data, target := "symptom_5".data, type := "HAS_SYMPTOM".data },
       { source := "disease_3".data, target := "symptom_3".data, type := "HAS_SYMPTOM".data },
       { source := "disease_3".data, target := "symptom_2".data, type := "HAS_SYMPTOM".data },
       { source := "disease_1".data, target := "solution_1".data, type := "HAS_SOLUTION".data },
       { source := "disease_2".data, target := "solution_2".data, type := "HAS_SOLUTION".data },
       { source := "disease_3".data, target := "solution_3".data, type := "HAS_SOLUTION".data }] }

/-- The graph with no nodes and no relationships. -/
def blankGraph : Graph := { nodes := [], relationships := [] }

/-- Counterexample graph for the match-percentage bound: one disease whose
only modelled symptom is `brown spots`. -/
def oneSymptomGraph : Graph :=
  { nodes :=
      [{ id := "d1".data, type := "Disease".data, name := "Spot Disease".data,
         description := [] },
       { id := "s1".data, type := "Symptom".data, name := "brown spots".data,
         description := [] }],
    relationships :=
      [{ source := "d1".data, target := "s1".data, type := "HAS_SYMPTOM".data }] }

/-- Counterexample graph for the exclusion guarantee of the
differentiator: disease one exhibits a symptom whose node name `ab. .`
cleans to `ab. ` (with a trailing space exposed by punctuation
stripping), disease two exhibits `q`. -/
def punctExclusionGraph : Graph :=
  { nodes :=
      [{ id := "d1".data, type := "Disease".data, name := "dis one".data,
         description := [] },
       { id := "d2".data, type := "Disease".data, name := "dis two".data,
         description := [] },
       { id := "s1".data, type := "Symptom".data, name := "ab. .".data,
         description := [] },
       { id := "s2".data, type := "Symptom".data, name := "q".data,
         description := [] }],
    relationships :=
      [{ source := "d1".data, target := "s1".data, type := "HAS_SYMPTOM".data },
       { source := "d2".data, target := "s2".data, type := "HAS_SYMPTOM".data }] }

/-- The candidate-disease list after a first turn reporting
`yellowing leaves` on the sample graph (spec scenario 2): Iron Chlorosis
and Powdery Mildew tie at one matched symptom out of two. -/
def scenario2Possible : List DiseaseResult :=
  engineFindDiseases sampleGraph ["yellowing leaves".data]

/-- The conversation state used for the forced-stop counterexample: three
confirmed symptoms that match nothing, no pending question. -/
def threeConfirmedState : EngineState :=
  { confirmed := ["a".data, "b".data, "c".data], ruledOut := [], asked := [],
    lastAsked := none }

/-- The conversation state used for the forced-stop witness: both sample
Bacterial Leaf Spot symptoms plus one unmatched report. -/
def blsPlusNoiseState : EngineState :=
  { confirmed := ["brown spots".data, "leaf drop".data, "q".data], ruledOut := [],
    asked := [], lastAsked := none }

/-- A candidate-disease list naming the two diseases of
`punctExclusionGraph` (only the `disease` field matters to the
selector). -/
def cexPossible : List DiseaseResult :=
  [{ disease := "dis one".data, description := [], all_symptoms := [], matched := [],
     match_count := 1, total_symptoms := 1, match_percentage := 1 },
   { disease := "dis two".data, description := [], all_symptoms := [], matched := [],
     match_count := 1, total_symptoms := 1, match_percentage := 1 }]

/-- The single row returned by ranking `brown spots` on the sample
graph. -/
def brownSpotsRow : DiseaseResult :=
  { disease := "Bacterial Leaf Spot".data,
    description := "A bacterial infection causing dark spots on leaves".data,
    all_symptoms := ["brown spots".data, "leaf drop".data],
    matched := ["brown spots".data],
    match_count := 1, total_symptoms := 2, match_percentage := mkRat 1 2 }

/-! ## Bridging lemmas for the computable rational operations -/

theorem ratSub_eq (a b : ℚ) : ratSub a b = a - b := by
  have ha : ((a.den : ℚ)) ≠ 0 := by exact_mod_cast a.den_nz
  have hb : ((b.den : ℚ)) ≠ 0 := by exact_mod_cast b.den_nz
  rw [ratSub, Rat.mkRat_eq_div]
  push_cast
  conv_rhs => rw [← Rat.num_div_den a, ← Rat.num_div_den b]
  rw [div_sub_div _ _ ha hb]
  ring_nf

theorem ratAdd_eq (a b : ℚ) : ratAdd a b = a + b := by
  have ha : ((a.den : ℚ)) ≠ 0 := by exact_mod_cast a.den_nz
  have hb : ((b.den : ℚ)) ≠ 0 := by exact_mod_cast b.den_nz
  rw [ratAdd, Rat.mkRat_eq_div]
  push_cast
  conv_rhs => rw [← Rat.num_div_den a, ← Rat.num_div_den b]
  rw [div_add_div _ _ ha hb]
  ring_nf

theorem ratMul_eq (a b : ℚ) : ratMul a b = a * b := by
  have ha : ((a.den : ℚ)) ≠ 0 := by exact_mod_cast a.den_nz
  have hb : ((b.den : ℚ)) ≠ 0 := by exact_mod_cast b.den_nz
  rw [ratMul, Rat.mkRat_eq_div]
  push_cast
  conv_rhs => rw [← Rat.num_div_den a, ← Rat.num_div_den b]
  rw [div_mul_div_comm]

theorem mkRat_eq_natDiv (a b : ℕ) : natDivQ a b = (a : ℚ) / b := by
  rw [natDivQ, Rat.mkRat_eq_div, Int.cast_natCast]

/-! ## Symmetry of the fuzzy matcher -/

theorem keywordEntryHit_symm (k : Str) (syns : List Str) (u d : Str) :
    keywordEntryHit k syns u d = keywordEntryHit k syns d u := by
  unfold keywordEntryHit
  generalize isSubstr k u = a
  generalize isSubstr k d = b
  generalize syns.any (fun s => isSubstr s u) = c
  generalize syns.any (fun s => isSubstr s d) = e
  cases a <;> cases b <;> cases c <;> cases e <;> rfl

theorem keywordAny_symm (l : List (Str × List Str)) (u d : Str) :
    (l.any fun e => keywordEntryHit e.1 e.2 u d) =
      (l.any fun e => keywordEntryHit e.1 e.2 d u) := by
  induction l with
  | nil => rfl
  | cons e rest ih => simp only [List.any_cons, ih, keywordEntryHit_symm]

theorem keywordCheck_symm (u d : Str) : keywordCheck u d = keywordCheck d u :=
  keywordAny_symm symptomKeywords u d

theorem wordOverlapGt_symm (uw dw : Finset Str) : wordOverlapGt uw dw = wordOverlapGt dw uw := by
  unfold wordOverlapGt
  rw [Finset.inter_comm, Finset.union_comm]

theorem symptomsMatchCore_symm (u d : Str) : symptomsMatchCore u d = symptomsMatchCore d u := by
  unfold symptomsMatchCore
  rw [keywordCheck_symm, wordOverlapGt_symm,
      Bool.or_comm (isSubstr u d), Bool.or_comm (decide (wordSet u = ∅))]
  have h : (decide (u = d)) = (decide (d = u)) := decide_eq_decide.mpr eq_comm
  rw [h]

/-- C4: the fuzzy predicate `matches` (`_symptoms_match`) is symmetric:
for every pair of strings `a` and `b`, `matches(a,b) == matches(b,a)`. -/
theorem C4_matches_symmetric (a b : Str) : symptomsMatch a b = symptomsMatch b a :=
  symptomsMatchCore_symm _ _

/-! ## Character and normalisation lemmas -/

theorem toNat_ofNat_small {m : ℕ} (h : m < 55296) : (Char.ofNat m).toNat = m := by
  have hv : Nat.isValidChar m := Or.inl h
  rw [Char.ofNat, dif_pos hv]
  rfl

theorem isPySpace_eq_false_of_gt {c : Char} (h : 32 < c.toNat) : isPySpace c = false := by
  unfold isPySpace
  simp only [Bool.or_eq_false_iff, decide_eq_false_iff_not]
  refine ⟨⟨⟨⟨⟨?_, ?_⟩, ?_⟩, ?_⟩, ?_⟩, ?_⟩ <;>
    exact fun he => by rw [he] at h; exact absurd h (by decide)

theorem isPunctCh_eq_false_of_gt {c : Char} (h : 63 < c.toNat) : isPunctCh c = false := by
  unfold isPunctCh
  simp only [Bool.or_eq_false_iff, decide_eq_false_iff_not]
  refine ⟨⟨⟨⟨⟨?_, ?_⟩, ?_⟩, ?_⟩, ?_⟩, ?_⟩ <;>
    exact fun he => by rw [he] at h; exact absurd h (by decide)

theorem toLower_eq (c : Char) :
    Char.toLower c = if 65 ≤ c.toNat ∧ c.toNat ≤ 90 then Char.ofNat (c.toNat + 32) else c := rfl

theorem isPySpace_toLower (c : Char) : isPySpace (Char.toLower c) = isPySpace c := by
  rw [toLower_eq]
  by_cases h : 65 ≤ c.toNat ∧ c.toNat ≤ 90
  · have h1 : (Char.ofNat (c.toNat + 32)).toNat = c.toNat + 32 := toNat_ofNat_small (by omega)
    rw [if_pos h, isPySpace_eq_false_of_gt (by omega),
      isPySpace_eq_false_of_gt (by omega : 32 < c.toNat)]
  · rw [if_neg h]

theorem isPunctCh_toLower (c : Char) : isPunctCh (Char.toLower c) = isPunctCh c := by
  rw [toLower_eq]
  by_cases h : 65 ≤ c.toNat ∧ c.toNat ≤ 90
  · have h1 : (Char.ofNat (c.toNat + 32)).toNat = c.toNat + 32 := toNat_ofNat_small (by omega)
    rw [if_pos h, isPunctCh_eq_false_of_gt (by omega),
      isPunctCh_eq_false_of_gt (by omega : 63 < c.toNat)]
  · rw [if_neg h]

theorem toLower_not_upper (c : Char) :
    ¬(65 ≤ (Char.toLower c).toNat ∧ (Char.toLower c).toNat ≤ 90) := by
  rw [toLower_eq]
  by_cases h : 65 ≤ c.toNat ∧ c.toNat ≤ 90
  · have h1 : (Char.ofNat (c.toNat + 32)).toNat = c.toNat + 32 := toNat_ofNat_small (by omega)
    rw [if_pos h]
    omega
  · rw [if_neg h]
    exact h

theorem collapseWs_ne_nil {l : Str} (h : l ≠ []) : collapseWs l ≠ [] := by
  induction l with
  | nil => exact absurd rfl h
  | cons c rest ih =>
    cases rest with
    | nil => simp only [collapseWs]; split <;> simp
    | cons c' rest' =>
      simp only [collapseWs]
      split
      · split
        · exact ih (by simp)
        · simp
      · simp

theorem collapseWs_head? (l : Str) :
    (collapseWs l).head? = l.head?.map (fun c => if isPySpace c then ' ' else c) := by
  induction l with
  | nil => rfl
  | cons c rest ih =>
    cases rest with
    | nil =>
      simp only [collapseWs, List.head?_cons, Option.map_some]
      split <;> simp_all
    | cons c' rest' =>
      simp only [collapseWs]
      by_cases h1 : isPySpace c
      · by_cases h2 : isPySpace c'
        · rw [if_pos h1, if_pos h2, ih]
          simp [h1, h2]
        · rw [if_pos h1, if_neg h2]
          simp [h1]
      · rw [if_neg h1]
        simp [h1]

theorem getLast?_cons_of_ne_nil {α : Type} {a : α} {t : List α} (h : t ≠ []) :
    (a :: t).getLast? = t.getLast? := by
  cases t with
  | nil => exact absurd rfl h
  | cons b t' => exact List.getLast?_cons_cons

theorem collapseWs_getLast? (l : Str) :
    (collapseWs l).getLast? = l.getLast?.map (fun c => if isPySpace c then ' ' else c) := by
  induction l with
  | nil => rfl
  | cons c rest ih =>
    cases rest with
    | nil =>
      simp only [collapseWs]
      split <;> simp_all
    | cons c' rest' =>
      simp only [collapseWs]
      have hne : collapseWs (c' :: rest') ≠ [] := collapseWs_ne_nil (by simp)
      by_cases h1 : isPySpace c
      · by_cases h2 : isPySpace c'
        · rw [if_pos h1, if_pos h2, ih, List.getLast?_cons_cons]
        · rw [if_pos h1, if_neg h2, getLast?_cons_of_ne_nil hne, ih, List.getLast?_cons_cons]
      · rw [if_neg h1, getLast?_cons_of_ne_nil hne, ih, List.getLast?_cons_cons]

theorem collapseWs_chain (l : Str) :
    List.Chain' (fun a b => ¬(isPySpace a = true ∧ isPySpace b = true)) (collapseWs l) := by
  induction l with
  | nil => exact List.chain'_nil
  | cons c rest ih =>
    cases rest with
    | nil =>
      simp only [collapseWs]
      split <;> exact List.chain'_singleton _
    | cons c' rest' =>
      simp only [collapseWs]
      by_cases h1 : isPySpace c
      · by_cases h2 : isPySpace c'
        · rw [if_pos h1, if_pos h2]
          exact ih
        · rw [if_pos h1, if_neg h2]
          refine List.chain'_cons'.mpr ⟨?_, ih⟩
          intro y hy
          rw [collapseWs_head?] at hy
          simp only [List.head?_cons, Option.map_some', Option.some.injEq, if_neg h2,
            Option.mem_def] at hy
          subst hy
          exact fun hcon => h2 hcon.2
      · rw [if_neg h1]
        refine List.chain'_cons'.mpr ⟨?_, ih⟩
        intro y hy
        exact fun hcon => h1 hcon.1

theorem collapseWs_space {l : Str} : ∀ c ∈ collapseWs l, isPySpace c = true → c = ' ' := by
  induction l with
  | nil => intro c hc; simp [collapseWs] at hc
  | cons c0 rest ih =>
    cases rest with
    | nil =>
      intro c hc hws
      simp only [collapseWs] at hc
      split at hc
      · simpa using hc
      · next hn =>
        simp only [List.mem_singleton] at hc
        subst hc
        exact absurd hws (by simpa using hn)
    | cons c' rest' =>
      intro c hc hws
      simp only [collapseWs] at hc
      split at hc
      · split at hc
        · exact ih c hc hws
        · rcases List.mem_cons.mp hc with h | h
          · exact h
          · exact ih c h hws
      · next hn =>
        rcases List.mem_cons.mp hc with h | h
        · subst h
          exact absurd hws (by simpa using hn)
        · exact ih c h hws

theorem head?_dropWhile {p : Char → Bool} {l : Str} {c : Char}
    (h : (l.dropWhile p).head? = some c) : p c = false := by
  induction l with
  | nil => simp at h
  | cons a rest ih =>
    rw [List.dropWhile_cons] at h
    split at h
    · exact ih h
    · next hp =>
      simp only [List.head?_cons, Option.some_inj] at h
      subst h
      simpa using hp

theorem stripRight_prefix (p : Char → Bool) (x : Str) : stripRight p x <+: x := by
  unfold stripRight
  have h := List.dropWhile_suffix (l := x.reverse) p
  have h2 := List.reverse_prefix.mpr h
  rwa [List.reverse_reverse] at h2

theorem head?_of_prefix {α : Type} {l x : List α} (h : l <+: x) {c : α}
    (hc : l.head? = some c) : x.head? = some c := by
  obtain ⟨t, rfl⟩ := h
  cases l with
  | nil => simp at hc
  | cons a l' => simpa using hc

theorem getLast?_stripRight (p : Char → Bool) (y : Str) :
    (stripRight p y).getLast? = (y.reverse.dropWhile p).head? := by
  unfold stripRight
  rw [List.getLast?_reverse]

theorem getLast?_map_char (f : Char → Char) (l : Str) :
    (l.map f).getLast? = l.getLast?.map f := by
  rw [← List.head?_reverse, ← List.map_reverse, List.head?_map, List.head?_reverse]

/-- C3 counterexample: the claim says `normalize` returns a string with no
surrounding whitespace, but stripping the trailing `.` of `"hi ."`
exposes a space that the whitespace strip (which ran first) never
removes: the result is `"hi "` with a trailing space. -/
theorem C3_counterexample :
    cleanSymptomText "hi .".data = "hi ".data ∧
    (cleanSymptomText "hi .".data).getLast? = some ' ' ∧
    isPySpace ' ' = true := by
  refine ⟨by decide, by decide, by decide⟩

/-- C3 amended: `normalize` (`_clean_symptom_text`) lower-cases (the result
has no ASCII capital letters), maps every whitespace character to `' '`
and collapses whitespace runs (no two adjacent whitespace characters
remain), never starts or ends with one of the stripped punctuation
characters, and maps the empty string to the empty string.  Surrounding
whitespace, however, can survive when punctuation stripping exposes it,
as `C3_counterexample` shows. -/
theorem C3_amended (s : Str) :
    cleanSymptomText [] = [] ∧
    (∀ c ∈ cleanSymptomText s, ¬(65 ≤ c.toNat ∧ c.toNat ≤ 90)) ∧
    (∀ c ∈ cleanSymptomText s, isPySpace c = true → c = ' ') ∧
    List.Chain' (fun a b => ¬(isPySpace a = true ∧ isPySpace b = true)) (cleanSymptomText s) ∧
    (∀ c, (cleanSymptomText s).head? = some c → isPunctCh c = false) ∧
    (∀ c, (cleanSymptomText s).getLast? = some c → isPunctCh c = false) := by
  by_cases hs : s = []
  · subst hs
    exact ⟨rfl, by simp [cleanSymptomText], by simp [cleanSymptomText],
      by simp [cleanSymptomText], by simp [cleanSymptomText], by simp [cleanSymptomText]⟩
  · have hclean : cleanSymptomText s = lowerStr (collapseWs (stripPunct (stripWs s))) := by
      unfold cleanSymptomText
      rw [if_neg hs]
    rw [hclean]
    refine ⟨rfl, ?_, ?_, ?_, ?_, ?_⟩
    · intro c hc
      obtain ⟨c0, _, rfl⟩ := List.mem_map.mp hc
      exact toLower_not_upper c0
    · intro c hc hws
      obtain ⟨c0, hc0, rfl⟩ := List.mem_map.mp hc
      rw [isPySpace_toLower] at hws
      rw [collapseWs_space c0 hc0 hws]
      decide
    · rw [lowerStr, List.chain'_map]
      refine (collapseWs_chain (stripPunct (stripWs s))).imp ?_
      intro a b hab hcon
      refine hab ⟨?_, ?_⟩
      · rw [← isPySpace_toLower a]
        exact hcon.1
      · rw [← isPySpace_toLower b]
        exact hcon.2
    · intro c hc
      rw [lowerStr, List.head?_map] at hc
      cases hh : (collapseWs (stripPunct (stripWs s))).head? with
      | none => rw [hh] at hc; simp at hc
      | some c0 =>
        rw [hh] at hc
        simp only [Option.map_some', Option.some.injEq] at hc
        subst hc
        rw [isPunctCh_toLower]
        rw [collapseWs_head?] at hh
        cases hx0 : (stripPunct (stripWs s)).head? with
        | none => rw [hx0] at hh; simp at hh
        | some c1 =>
          rw [hx0] at hh
          simp only [Option.map_some', Option.some.injEq] at hh
          subst hh
          have hp : isPunctCh c1 = false := by
            have hpre := stripRight_prefix isPunctCh (stripLeft isPunctCh (stripWs s))
            have hx1 : (stripLeft isPunctCh (stripWs s)).head? = some c1 :=
              head?_of_prefix hpre hx0
            exact head?_dropWhile hx1
          split
          · decide
          · exact hp
    · intro c hc
      rw [lowerStr, getLast?_map_char] at hc
      cases hh : (collapseWs (stripPunct (stripWs s))).getLast? with
      | none => rw [hh] at hc; simp at hc
      | some c0 =>
        rw [hh] at hc
        simp only [Option.map_some', Option.some.injEq] at hc
        subst hc
        rw [isPunctCh_toLower]
        rw [collapseWs_getLast?] at hh
        cases hx0 : (stripPunct (stripWs s)).getLast? with
        | none => rw [hx0] at hh; simp at hh
        | some c1 =>
          rw [hx0] at hh
          simp only [Option.map_some', Option.some.injEq] at hh
          subst hh
          have hp : isPunctCh c1 = false := by
            have hx1 : (stripRight isPunctCh (stripLeft isPunctCh (stripWs s))).getLast? =
                some c1 := hx0
            rw [getLast?_stripRight] at hx1
            exact head?_dropWhile hx1
          split
          · decide
          · exact hp

/-- Witness for `C3_amended` at the concrete input `"  Hi  There .."`,
whose normalisation is `"hi there"`. -/
theorem C3_amended_witness :
    ¬(65 ≤ 'h'.toNat ∧ 'h'.toNat ≤ 90) ∧ isPunctCh 'h' = false :=
  ⟨(C3_amended "  Hi  There ..".data).2.1 'h' (by decide),
   (C3_amended "  Hi  There ..".data).2.2.2.2.1 'h' (by decide)⟩

/-! ## Ranking-layer lemmas -/

theorem diseaseCandidate_spec {g : Graph} {symptomsLower : List Str} {dn : GNode}
    {r : DiseaseResult} (h : diseaseCandidate g symptomsLower dn = some r) :
    r.disease = dn.name ∧
    r.all_symptoms = (gatherSymptomsRaw g dn.id).dedup ∧
    r.matched ≠ [] ∧
    r.match_count = r.matched.length ∧
    r.match_count ≤ symptomsLower.length ∧
    r.total_symptoms = max r.all_symptoms.length 1 ∧
    r.match_percentage = natDivQ r.match_count r.total_symptoms := by
  unfold diseaseCandidate at h
  simp only [] at h
  split at h
  · next hm =>
    rw [Option.some.injEq] at h
    subst h
    refine ⟨rfl, rfl, hm, rfl, ?_, rfl, rfl⟩
    exact List.length_filterMap_le _ _
  · exact absurd h (by simp)

theorem mem_findDiseases {g : Graph} {symptoms : List Str} {r : DiseaseResult}
    (h : r ∈ findDiseasesBySymptoms g symptoms) :
    ∃ dn ∈ diseaseNodes g,
      diseaseCandidate g (symptoms.map (fun s => cleanSymptomText (lowerStr s))) dn = some r := by
  unfold findDiseasesBySymptoms at h
  split at h
  · exact absurd h (by simp)
  · have h1 : r ∈ List.insertionSort rankRel
        ((diseaseNodes g).filterMap
          (diseaseCandidate g (symptoms.map (fun s => cleanSymptomText (lowerStr s))))) :=
      List.mem_of_mem_take h
    have h2 := (List.perm_insertionSort rankRel _).mem_iff.mp h1
    obtain ⟨dn, hdn, hr⟩ := List.mem_filterMap.mp h2
    exact ⟨dn, hdn, hr⟩

/-- C1 counterexample: on a graph whose single disease has the one symptom
`brown spots`, the confirmed set `{brown, spots}` makes both user
symptoms match that same disease symptom, so `match_count = 2` exceeds
`total_symptoms = 1` and `match_percentage = 2 > 1`. -/
theorem C1_counterexample :
    (findDiseasesBySymptoms oneSymptomGraph ["brown".data, "spots".data]).map
        (fun r => (r.match_count, r.total_symptoms, r.match_percentage)) = [(2, 1, 2)] ∧
    ¬((2 : ℚ) ≤ 1) ∧ ¬((2 : ℕ) ≤ 1) := by
  refine ⟨by decide, by decide, by decide⟩

/-- C1 amended: every returned row has a strictly positive
`match_percentage` and `match_count` at most the number of confirmed
symptoms (no user symptom is counted twice), but `match_count` can
exceed `total_symptoms` — and hence `match_percentage` can exceed 1 —
when distinct user symptoms match the same disease symptom
(`C1_counterexample`). -/
theorem C1_amended (g : Graph) (symptoms : List Str) (r : DiseaseResult)
    (h : r ∈ findDiseasesBySymptoms g symptoms) :
    0 < r.match_percentage ∧ r.match_count ≤ symptoms.length := by
  obtain ⟨dn, _, hc⟩ := mem_findDiseases h
  obtain ⟨_, _, hm, hmc, hle, hts, hpct⟩ := diseaseCandidate_spec hc
  constructor
  · rw [hpct, mkRat_eq_natDiv]
    apply div_pos
    · have : 0 < r.match_count := by
        rw [hmc]
        exact List.length_pos.mpr hm
      exact_mod_cast this
    · have : 0 < r.total_symptoms := by
        rw [hts]
        exact lt_of_lt_of_le Nat.one_pos (le_max_right _ _)
      exact_mod_cast this
  · calc r.match_count ≤ (symptoms.map (fun s => cleanSymptomText (lowerStr s))).length := hle
      _ = symptoms.length := List.length_map _ _

/-- Witness for `C1_amended`: the `brown spots` ranking row of the sample
graph. -/
theorem C1_amended_witness :
    0 < brownSpotsRow.match_percentage ∧
    brownSpotsRow.match_count ≤ (["brown spots".data] : List Str).length :=
  C1_amended sampleGraph ["brown spots".data] brownSpotsRow (by decide)

/-- C5: the ranked list contains no disease with zero matched symptoms, is
sorted non-increasing by the lexicographic key
`(match_percentage, match_count)`, has at most 10 rows, and the engine
wrapper returns at most 8 of them. -/
theorem C5_rank_shape (g : Graph) (symptoms : List Str) :
    (∀ r ∈ findDiseasesBySymptoms g symptoms, r.matched ≠ [] ∧ 1 ≤ r.match_count) ∧
    List.Sorted rankRel (findDiseasesBySymptoms g symptoms) ∧
    (findDiseasesBySymptoms g symptoms).length ≤ 10 ∧
    (engineFindDiseases g symptoms).length ≤ 8 := by
  refine ⟨?_, ?_, ?_, ?_⟩
  · intro r hr
    obtain ⟨dn, _, hc⟩ := mem_findDiseases hr
    obtain ⟨_, _, hm, hmc, _, _, _⟩ := diseaseCandidate_spec hc
    refine ⟨hm, ?_⟩
    rw [hmc]
    exact List.length_pos.mpr hm
  · unfold findDiseasesBySymptoms
    split
    · exact List.sorted_nil
    · exact (List.sorted_insertionSort rankRel _).sublist (List.take_sublist _ _)
  · unfold findDiseasesBySymptoms
    split
    · simp
    · rw [List.length_take]
      exact min_le_left _ _
  · unfold engineFindDiseases
    split
    · simp
    · rw [List.length_take]
      exact min_le_left _ _

/-- Witness for `C5_rank_shape`: the `brown spots` row of the sample graph
has a non-empty matched list. -/
theorem C5_rank_shape_witness :
    brownSpotsRow.matched ≠ [] ∧ 1 ≤ brownSpotsRow.match_count :=
  (C5_rank_shape sampleGraph ["brown spots".data]).1 brownSpotsRow (by decide)

/-! ## Graph-traversal membership lemmas -/

theorem mem_relsFromSource {g : Graph} {did : Str} {r : GRel}
    (h : r ∈ relsFromSource g did) :
    r ∈ g.relationships ∧ r.source = did ∧ r.source ≠ [] := by
  unfold relsFromSource at h
  obtain ⟨hm, hp⟩ := List.mem_filter.mp h
  simp only [Bool.and_eq_true, decide_eq_true_eq] at hp
  exact ⟨hm, hp.1, hp.2⟩

theorem mem_diseaseNodes {g : Graph} {dn : GNode} (h : dn ∈ diseaseNodes g) :
    dn ∈ g.nodes ∧ (dn.type = "Disease".data ∨ dn.type = "PlantDisease".data) := by
  unfold diseaseNodes nodesByType at h
  rcases List.mem_append.mp h with h' | h' <;>
    obtain ⟨hm, hty⟩ := List.mem_filter.mp h'
  · exact ⟨hm, Or.inl (of_decide_eq_true hty)⟩
  · exact ⟨hm, Or.inr (of_decide_eq_true hty)⟩


theorem mem_gatherSymptomsRaw {g : Graph} {did : Str} {s : Str}
    (h : s ∈ gatherSymptomsRaw g did) :
    s ≠ [] ∧
    ∃ r ∈ g.relationships, r.source = did ∧ r.source ≠ [] ∧ r.type ∈ symptomLinkKinds ∧
      ∃ t, nodeById g r.target = some t ∧ t.type = "Symptom".data ∧ t.name ≠ [] ∧
        cleanSymptomText t.name = s := by
  unfold gatherSymptomsRaw at h
  obtain ⟨r, hr, hsome⟩ := List.mem_filterMap.mp h
  obtain ⟨hrel, hsrc, hsrcne⟩ := mem_relsFromSource hr
  by_cases hk : r.type ∈ symptomLinkKinds
  · rw [if_pos hk] at hsome
    cases hnode : nodeById g r.target with
    | none => rw [hnode, Option.none_bind] at hsome; exact absurd hsome (by simp)
    | some t =>
      rw [hnode, Option.some_bind] at hsome
      by_cases ht : t.type = "Symptom".data
      · rw [if_pos ht] at hsome
        by_cases hn : t.name ≠ []
        · rw [if_pos hn] at hsome
          by_cases hc : cleanSymptomText t.name ≠ []
          · rw [if_pos hc, Option.some.injEq] at hsome
            subst hsome
            exact ⟨hc, r, hrel, hsrc, hsrcne, hk, t, hnode, ht, hn, rfl⟩
          · rw [if_neg hc] at hsome; exact absurd hsome (by simp)
        · rw [if_neg hn] at hsome; exact absurd hsome (by simp)
      · rw [if_neg ht] at hsome; exact absurd hsome (by simp)
  · rw [if_neg hk] at hsome; exact absurd hsome (by simp)

theorem diffSymptomOf_spec {g : Graph} {exL : List Str} {r : GRel} {k : Str}
    (h : diffSymptomOf g exL r = some k) :
    r.type ∈ symptomLinkKinds ∧ k ≠ [] ∧ k ∉ exL ∧
    (∀ e ∈ exL, symptomsMatch k e = false) ∧
    ∃ t, nodeById g r.target = some t ∧ t.type = "Symptom".data ∧ t.name ≠ [] ∧
      cleanSymptomText t.name = k := by
  unfold diffSymptomOf at h
  by_cases hk : r.type ∈ symptomLinkKinds
  · rw [if_pos hk] at h
    cases hnode : nodeById g r.target with
    | none => rw [hnode, Option.none_bind] at h; exact absurd h (by simp)
    | some t =>
      rw [hnode, Option.some_bind] at h
      by_cases ht : t.type = "Symptom".data
      · rw [if_pos ht] at h
        by_cases hn : t.name ≠ []
        · rw [if_pos hn] at h
          by_cases hc : cleanSymptomText t.name ≠ [] ∧ cleanSymptomText t.name ∉ exL
          · rw [if_pos hc] at h
            by_cases hf : exL.any (fun e => symptomsMatch (cleanSymptomText t.name) e) = true
            · rw [if_pos hf] at h; exact absurd h (by simp)
            · rw [if_neg hf] at h
              rw [Option.some.injEq] at h
              subst h
              refine ⟨hk, hc.1, hc.2, ?_, t, rfl, ht, hn, rfl⟩
              intro e he
              cases hb : symptomsMatch (cleanSymptomText t.name) e
              · rfl
              · exact absurd (List.any_eq_true.mpr ⟨e, he, hb⟩) hf
          · rw [if_neg hc] at h; exact absurd h (by simp)
        · rw [if_neg hn] at h; exact absurd h (by simp)
      · rw [if_neg ht] at h; exact absurd h (by simp)
  · rw [if_neg hk] at h; exact absurd h (by simp)

theorem mem_keys_mapAdd {m : List (Str × List Str)} {key dname k : Str}
    (h : k ∈ (mapAdd m key dname).map Prod.fst) : k = key ∨ k ∈ m.map Prod.fst := by
  induction m with
  | nil =>
    unfold mapAdd at h
    simp only [List.map_cons, List.map_nil, List.mem_singleton] at h
    exact Or.inl h
  | cons p rest ih =>
    unfold mapAdd at h
    split at h
    · next hpk =>
      simp only [List.map_cons, List.mem_cons] at h
      rcases h with h | h
      · exact Or.inr (by simp [h])
      · exact Or.inr (by simp [h])
    · simp only [List.map_cons, List.mem_cons] at h
      rcases h with h | h
      · exact Or.inr (by simp [h])
      · rcases ih h with h' | h'
        · exact Or.inl h'
        · exact Or.inr (by simp [h'])

theorem diffGatherStep_keys {g : Graph} {exL : List Str} {dn : GNode}
    {m : List (Str × List Str)} {r : GRel} {k : Str}
    (h : k ∈ ((diffGatherStep g exL dn m r).map Prod.fst)) :
    k ∈ m.map Prod.fst ∨ diffSymptomOf g exL r = some k := by
  unfold diffGatherStep at h
  cases hd : diffSymptomOf g exL r with
  | none => rw [hd] at h; exact Or.inl h
  | some c =>
    rw [hd] at h
    rcases mem_keys_mapAdd h with heq | hmem
    · subst heq
      exact Or.inr rfl
    · exact Or.inl hmem

theorem foldl_rels_keys {g : Graph} {exL : List Str} {dn : GNode} :
    ∀ (rels : List GRel) (m : List (Str × List Str)) {k : Str},
      k ∈ ((rels.foldl (diffGatherStep g exL dn) m).map Prod.fst) →
      k ∈ m.map Prod.fst ∨ ∃ r ∈ rels, diffSymptomOf g exL r = some k := by
  intro rels
  induction rels with
  | nil => intro m k h; exact Or.inl h
  | cons r rest ih =>
    intro m k h
    rw [List.foldl_cons] at h
    rcases ih _ h with h' | ⟨r', hr', hs⟩
    · rcases diffGatherStep_keys h' with h'' | hs
      · exact Or.inl h''
      · exact Or.inr ⟨r, List.mem_cons_self r rest, hs⟩
    · exact Or.inr ⟨r', List.mem_cons_of_mem r hr', hs⟩

theorem foldl_nodes_keys {g : Graph} {exL : List Str} :
    ∀ (ds : List GNode) (m : List (Str × List Str)) {k : Str},
      k ∈ ((ds.foldl
          (fun m dn => (relsFromSource g dn.id).foldl (diffGatherStep g exL dn) m) m).map
            Prod.fst) →
      k ∈ m.map Prod.fst ∨
        ∃ dn ∈ ds, ∃ r ∈ relsFromSource g dn.id, diffSymptomOf g exL r = some k := by
  intro ds
  induction ds with
  | nil => intro m k h; exact Or.inl h
  | cons dn rest ih =>
    intro m k h
    rw [List.foldl_cons] at h
    rcases ih _ h with h' | ⟨dn', hdn', r', hr', hs⟩
    · rcases foldl_rels_keys _ _ h' with h'' | ⟨r, hr, hs⟩
      · exact Or.inl h''
      · exact Or.inr ⟨dn, List.mem_cons_self dn rest, r, hr, hs⟩
    · exact Or.inr ⟨dn', List.mem_cons_of_mem dn hdn', r', hr', hs⟩

theorem mem_findDifferentiatingSymptoms {g : Graph} {names excluded : List Str}
    {dr : DiffResult} (h : dr ∈ findDifferentiatingSymptoms g names excluded) :
    diffKeySource g ((diseaseNodes g).filter (fun n => decide (n.name ∈ names)))
      (excluded.map (fun s => cleanSymptomText (lowerStr s))) dr.symptom ∧
    dr.count = dr.diseases.length := by
  unfold findDifferentiatingSymptoms at h
  split at h
  · exact absurd h (by simp)
  · have h1 := List.mem_of_mem_take h
    have h2 := (List.perm_insertionSort diffRel _).mem_iff.mp h1
    obtain ⟨p, hp, hpr⟩ := List.mem_map.mp h2
    subst hpr
    refine ⟨?_, rfl⟩
    have hk : p.1 ∈ (((diseaseNodes g).filter (fun n => decide (n.name ∈ names))).foldl
        (fun m dn => (relsFromSource g dn.id).foldl
          (diffGatherStep g (excluded.map (fun s => cleanSymptomText (lowerStr s))) dn) m)
        []).map Prod.fst := List.mem_map_of_mem Prod.fst hp
    rcases foldl_nodes_keys _ _ hk with h' | ⟨dn, hdn, r, hr, hs⟩
    · simp at h'
    · obtain ⟨hkinds, hne, hnex, hfuzz, t, hnode, ht, hn, hclean⟩ := diffSymptomOf_spec hs
      obtain ⟨hrel, hsrc, hsrcne⟩ := mem_relsFromSource hr
      exact ⟨hne, hnex, hfuzz, dn, hdn, r, hrel, hsrc, hsrcne, hkinds, t, hnode, ht, hn, hclean⟩

theorem mem_getSolutions {g : Graph} {dname : Str} {e : SolutionResult}
    (h : e ∈ getSolutionsForDisease g dname) :
    ∃ dn ∈ diseaseNodes g, dn.name = dname ∧
      ∃ r ∈ g.relationships, r.source = dn.id ∧ r.source ≠ [] ∧ solutionKindOk r.type = true ∧
        ∃ t, nodeById g r.target = some t ∧ t.type = "Solution".data ∧
          t.name = e.solution_name ∧ e.solution_name ≠ [] := by
  unfold getSolutionsForDisease at h
  cases hfind : (diseaseNodes g).find? (fun n => decide (n.name = dname)) with
  | none => rw [hfind] at h; simp at h
  | some dn =>
    rw [hfind] at h
    have hdnp' := List.find?_some hfind
    simp only [decide_eq_true_eq] at hdnp'
    have hdnp : dn.name = dname := hdnp'
    have hdnmem : dn ∈ diseaseNodes g := List.mem_of_find?_eq_some hfind
    obtain ⟨r, hr, hsome⟩ := List.mem_filterMap.mp h
    obtain ⟨hrel, hsrc, hsrcne⟩ := mem_relsFromSource hr
    by_cases hk : solutionKindOk r.type = true
    · rw [if_pos hk] at hsome
      cases hnode : nodeById g r.target with
      | none => rw [hnode, Option.none_bind] at hsome; exact absurd hsome (by simp)
      | some t =>
        rw [hnode, Option.some_bind] at hsome
        by_cases ht : t.type = "Solution".data
        · rw [if_pos ht] at hsome
          by_cases hn : t.name ≠ []
          · rw [if_pos hn] at hsome
            rw [Option.some.injEq] at hsome
            subst hsome
            exact ⟨dn, hdnmem, hdnp, r, hrel, hsrc, hsrcne, hk, t, hnode, ht, rfl, hn⟩
          · rw [if_neg hn] at hsome; exact absurd hsome (by simp)
        · rw [if_neg ht] at hsome; exact absurd hsome (by simp)
    · rw [if_neg hk] at hsome; exact absurd hsome (by simp)

/-- C9: a relationship contributes a symptom to a disease's symptom set —
for ranking and for differentiator gathering — only when its source is a
`Disease`/`PlantDisease` node, its kind is recognised, and its target
exists, has type exactly `Symptom` and a non-empty name; likewise
`get_solutions_for_disease` returns only existing targets of type exactly
`Solution` with a non-empty name.  Edges to other node types, dangling
edges and nameless targets contribute nothing. -/
theorem C9_contribution_conditions :
    (∀ (g : Graph) (symptoms : List Str) (rr : DiseaseResult) (s : Str),
        rr ∈ findDiseasesBySymptoms g symptoms → s ∈ rr.all_symptoms →
        ∃ dn ∈ diseaseNodes g, rr.disease = dn.name ∧
          (dn.type = "Disease".data ∨ dn.type = "PlantDisease".data) ∧
          ∃ r ∈ g.relationships, r.source = dn.id ∧ r.type ∈ symptomLinkKinds ∧
            ∃ t, nodeById g r.target = some t ∧ t.type = "Symptom".data ∧ t.name ≠ [] ∧
              cleanSymptomText t.name = s ∧ s ≠ []) ∧
    (∀ (g : Graph) (names excluded : List Str) (dr : DiffResult),
        dr ∈ findDifferentiatingSymptoms g names excluded →
        ∃ dn ∈ diseaseNodes g, dn.name ∈ names ∧
          (dn.type = "Disease".data ∨ dn.type = "PlantDisease".data) ∧
          ∃ r ∈ g.relationships, r.source = dn.id ∧ r.type ∈ symptomLinkKinds ∧
            ∃ t, nodeById g r.target = some t ∧ t.type = "Symptom".data ∧ t.name ≠ [] ∧
              cleanSymptomText t.name = dr.symptom ∧ dr.symptom ≠ []) ∧
    (∀ (g : Graph) (dname : Str) (e : SolutionResult),
        e ∈ getSolutionsForDisease g dname →
        ∃ dn ∈ diseaseNodes g, dn.name = dname ∧
          ∃ r ∈ g.relationships, r.source = dn.id ∧ solutionKindOk r.type = true ∧
            ∃ t, nodeById g r.target = some t ∧ t.type = "Solution".data ∧
              t.name = e.solution_name ∧ e.solution_name ≠ []) := by
  refine ⟨?_, ?_, ?_⟩
  · intro g symptoms rr s hrr hs
    obtain ⟨dn, hdn, hc⟩ := mem_findDiseases hrr
    obtain ⟨hname, hall, _, _, _, _, _⟩ := diseaseCandidate_spec hc
    rw [hall] at hs
    have hs' := List.mem_dedup.mp hs
    obtain ⟨hne, r, hrel, hsrc, _, hkinds, t, hnode, ht, hn, hclean⟩ :=
      mem_gatherSymptomsRaw hs'
    obtain ⟨_, hty⟩ := mem_diseaseNodes hdn
    exact ⟨dn, hdn, hname, hty, r, hrel, hsrc, hkinds, t, hnode, ht, hn, hclean, hne⟩
  · intro g names excluded dr hdr
    obtain ⟨⟨hne, _, _, dn, hdnf, r, hrel, hsrc, _, hkinds, t, hnode, ht, hn, hclean⟩, _⟩ :=
      mem_findDifferentiatingSymptoms hdr
    obtain ⟨hdnd, hnm⟩ := List.mem_filter.mp hdnf
    obtain ⟨_, hty⟩ := mem_diseaseNodes hdnd
    exact ⟨dn, hdnd, of_decide_eq_true hnm, hty, r, hrel, hsrc, hkinds, t, hnode, ht, hn,
      hclean, hne⟩
  · intro g dname e he
    obtain ⟨dn, hdn, hname, r, hrel, hsrc, _, hk, t, hnode, ht, htn, hen⟩ :=
      mem_getSolutions he
    exact ⟨dn, hdn, hname, r, hrel, hsrc, hk, t, hnode, ht, htn, hen⟩

/-- Witness for `C9_contribution_conditions`: the `brown spots` symptom of
the sample Bacterial Leaf Spot row. -/
theorem C9_contribution_conditions_witness :
    ∃ dn ∈ diseaseNodes sampleGraph, brownSpotsRow.disease = dn.name ∧
      (dn.type = "Disease".data ∨ dn.type = "PlantDisease".data) ∧
      ∃ r ∈ sampleGraph.relationships, r.source = dn.id ∧ r.type ∈ symptomLinkKinds ∧
        ∃ t, nodeById sampleGraph r.target = some t ∧ t.type = "Symptom".data ∧
          t.name ≠ [] ∧ cleanSymptomText t.name = "brown spots".data ∧
          ("brown spots".data : Str) ≠ [] :=
  C9_contribution_conditions.1 sampleGraph ["brown spots".data] brownSpotsRow
    "brown spots".data (by decide) (by decide)

/-! ## Best-symptom selection lemmas -/

theorem bestFold_inv (nn : ℕ) (allEx : List Str) :
    ∀ (l : List DiffResult) (b : Option DiffResult) (sc : ℚ) (r : DiffResult),
      (l.foldl (bestStep nn allEx) (b, sc)).1 = some r →
      (r ∈ l ∧ (l.foldl (bestStep nn allEx) (b, sc)).2 = diffScore nn r ∧
        sc < (l.foldl (bestStep nn allEx) (b, sc)).2 ∧
        stripWs (lowerStr r.symptom) ∉ allEx) ∨
      (b = some r ∧ l.foldl (bestStep nn allEx) (b, sc) = (b, sc)) := by
  intro l
  induction l with
  | nil => intro b sc r h; exact Or.inr ⟨h, rfl⟩
  | cons x xs ih =>
    intro b sc r h
    rw [List.foldl_cons] at h
    by_cases hex : stripWs (lowerStr x.symptom) ∈ allEx
    · have hstep : bestStep nn allEx (b, sc) x = (b, sc) := by
        unfold bestStep
        rw [if_pos hex]
      rw [hstep] at h
      rw [List.foldl_cons, hstep]
      rcases ih b sc r h with ⟨hmem, h2, h3, h4⟩ | ⟨hb, hfix⟩
      · exact Or.inl ⟨List.mem_cons_of_mem x hmem, h2, h3, h4⟩
      · exact Or.inr ⟨hb, hfix⟩
    · by_cases himp : diffScore nn x > sc
      · have hstep : bestStep nn allEx (b, sc) x = (some x, diffScore nn x) := by
          unfold bestStep
          rw [if_neg hex, if_pos himp]
        rw [hstep] at h
        rw [List.foldl_cons, hstep]
        rcases ih (some x) (diffScore nn x) r h with ⟨hmem, h2, h3, h4⟩ | ⟨hb, hfix⟩
        · exact Or.inl ⟨List.mem_cons_of_mem x hmem, h2, lt_trans himp h3, h4⟩
        · rw [Option.some.injEq] at hb
          subst hb
          rw [hfix]
          exact Or.inl ⟨List.mem_cons_self x xs, rfl, himp, hex⟩
      · have hstep : bestStep nn allEx (b, sc) x = (b, sc) := by
          unfold bestStep
          rw [if_neg hex, if_neg himp]
        rw [hstep] at h
        rw [List.foldl_cons, hstep]
        rcases ih b sc r h with ⟨hmem, h2, h3, h4⟩ | ⟨hb, hfix⟩
        · exact Or.inl ⟨List.mem_cons_of_mem x hmem, h2, h3, h4⟩
        · exact Or.inr ⟨hb, hfix⟩

theorem bestFold_fixed (nn : ℕ) (allEx : List Str) :
    ∀ (l : List DiffResult) (b : Option DiffResult) (sc : ℚ),
      (∀ r ∈ l, diffScore nn r ≤ sc) →
      l.foldl (bestStep nn allEx) (b, sc) = (b, sc) := by
  intro l
  induction l with
  | nil => intro b sc _; rfl
  | cons x xs ih =>
    intro b sc hall
    rw [List.foldl_cons]
    have hstep : bestStep nn allEx (b, sc) x = (b, sc) := by
      unfold bestStep
      by_cases hex : stripWs (lowerStr x.symptom) ∈ allEx
      · rw [if_pos hex]
      · rw [if_neg hex, if_neg (not_lt.mpr (hall x (List.mem_cons_self x xs)))]
    rw [hstep]
    exact ih b sc (fun r hr => hall r (List.mem_cons_of_mem x hr))

/-- C6 counterexample: on `punctExclusionGraph` with exclusion set
`{"zab."}`, the selector returns `"ab. "` — a symptom that fuzzily
matches the raw exclusion member `"zab."` (substring after stripping) —
because the code tests exclusion only against the cleaned form `"zab"`,
which `"ab. "` does not match. -/
theorem C6_counterexample :
    findBestSymptom punctExclusionGraph cexPossible ["zab.".data] [] [] =
      some "ab. ".data ∧
    symptomsMatch "ab. ".data "zab.".data = true ∧
    "zab.".data ∈ (["zab.".data] : List Str) := by
  refine ⟨by decide, by decide, by decide⟩

/-- C6 amended: the selector never returns a symptom that fuzzily matches
the *cleaned* form (`_clean_symptom_text` of the lower-cased member) of
an exclusion-set entry, and the returned symptom always has a strictly
positive differentiation score; when every candidate scores at most 0
the selector returns none.  The guarantee does not extend to fuzzy
matches against the raw exclusion members (`C6_counterexample`). -/
theorem C6_amended (g : Graph) (possible : List DiseaseResult)
    (confirmed ruledOut asked : List Str) :
    (∀ s, findBestSymptom g possible confirmed ruledOut asked = some s →
      (∀ e ∈ allExcludedOf confirmed ruledOut asked,
        symptomsMatch s (cleanSymptomText (lowerStr e)) = false) ∧
      ∃ dr ∈ findDifferentiatingSymptoms g ((possible.take 5).map (fun d => d.disease))
          (allExcludedOf confirmed ruledOut asked),
        dr.symptom = s ∧
        0 < diffScore ((possible.take 5).map (fun d => d.disease)).length dr) ∧
    ((∀ dr ∈ findDifferentiatingSymptoms g ((possible.take 5).map (fun d => d.disease))
          (allExcludedOf confirmed ruledOut asked),
        diffScore ((possible.take 5).map (fun d => d.disease)).length dr ≤ 0) →
      findBestSymptom g possible confirmed ruledOut asked = none) := by
  constructor
  · intro s hs
    unfold findBestSymptom at hs
    by_cases hp : possible = []
    · rw [if_pos hp] at hs
      exact absurd hs (by simp)
    · rw [if_neg hp] at hs
      simp only [] at hs
      by_cases hres : findDifferentiatingSymptoms g
          ((possible.take 5).map (fun d => d.disease))
          (allExcludedOf confirmed ruledOut asked) = []
      · rw [if_pos hres] at hs
        exact absurd hs (by simp)
      · rw [if_neg hres] at hs
        cases hf : (bestSymptomFold ((possible.take 5).map (fun d => d.disease)).length
            (allExcludedOf confirmed ruledOut asked)
            (findDifferentiatingSymptoms g ((possible.take 5).map (fun d => d.disease))
              (allExcludedOf confirmed ruledOut asked))).1 with
        | none => rw [hf] at hs; exact absurd hs (by simp)
        | some r =>
          rw [hf] at hs
          rw [Option.some.injEq] at hs
          subst hs
          unfold bestSymptomFold at hf
          rcases bestFold_inv _ _ _ _ _ _ hf with ⟨hmem, hsc, hpos, _⟩ | ⟨hcon, _⟩
          · constructor
            · intro e he
              obtain ⟨⟨_, _, hfuzz, _⟩, _⟩ := mem_findDifferentiatingSymptoms hmem
              exact hfuzz (cleanSymptomText (lowerStr e))
                (List.mem_map_of_mem (fun x => cleanSymptomText (lowerStr x)) he)
            · exact ⟨r, hmem, rfl, by rw [← hsc]; exact hpos⟩
          · exact absurd hcon (by simp)
  · intro hall
    unfold findBestSymptom
    by_cases hp : possible = []
    · rw [if_pos hp]
    · rw [if_neg hp]
      simp only []
      by_cases hres : findDifferentiatingSymptoms g
          ((possible.take 5).map (fun d => d.disease))
          (allExcludedOf confirmed ruledOut asked) = []
      · rw [if_pos hres]
      · rw [if_neg hres]
        unfold bestSymptomFold
        rw [bestFold_fixed _ _ _ _ _ hall]

/-- Witness for `C6_amended`: the scenario-2 selection on the sample graph
returns `stunted growth`, which fuzzily matches no cleaned exclusion
member and scores 1.1. -/
theorem C6_amended_witness :
    (∀ e ∈ allExcludedOf ["yellowing leaves".data] [] [],
      symptomsMatch "stunted growth".data (cleanSymptomText (lowerStr e)) = false) ∧
    ∃ dr ∈ findDifferentiatingSymptoms sampleGraph
        ((scenario2Possible.take 5).map (fun d => d.disease))
        (allExcludedOf ["yellowing leaves".data] [] []),
      dr.symptom = "stunted growth".data ∧
      0 < diffScore ((scenario2Possible.take 5).map (fun d => d.disease)).length dr :=
  (C6_amended sampleGraph scenario2Possible ["yellowing leaves".data] [] []).1
    "stunted growth".data (by decide)

/-! ## Determinism of the differentiator -/

theorem anyExt {p : Str → Bool} {l1 l2 : List Str} (h : ∀ x, x ∈ l1 ↔ x ∈ l2) :
    l1.any p = l2.any p := by
  by_cases hb : l1.any p = true
  · obtain ⟨x, hx, hp⟩ := List.any_eq_true.mp hb
    rw [hb, List.any_eq_true.mpr ⟨x, (h x).mp hx, hp⟩]
  · rw [Bool.not_eq_true] at hb
    rw [hb]
    cases hb2 : l2.any p
    · rfl
    · obtain ⟨x, hx, hp⟩ := List.any_eq_true.mp hb2
      rw [← hb, List.any_eq_true.mpr ⟨x, (h x).mpr hx, hp⟩]

theorem diffSymptomOf_ext {g : Graph} {exL1 exL2 : List Str}
    (h : ∀ x, x ∈ exL1 ↔ x ∈ exL2) (r : GRel) :
    diffSymptomOf g exL1 r = diffSymptomOf g exL2 r := by
  unfold diffSymptomOf
  by_cases hk : r.type ∈ symptomLinkKinds
  · rw [if_pos hk, if_pos hk]
    cases nodeById g r.target with
    | none => rfl
    | some t =>
      rw [Option.some_bind, Option.some_bind]
      by_cases ht : t.type = "Symptom".data
      · rw [if_pos ht, if_pos ht]
        by_cases hn : t.name ≠ []
        · rw [if_pos hn, if_pos hn]
          have hiff : (cleanSymptomText t.name ≠ [] ∧ cleanSymptomText t.name ∉ exL1) ↔
              (cleanSymptomText t.name ≠ [] ∧ cleanSymptomText t.name ∉ exL2) := by
            constructor
            · rintro ⟨a, b⟩
              exact ⟨a, fun hmem => b ((h _).mpr hmem)⟩
            · rintro ⟨a, b⟩
              exact ⟨a, fun hmem => b ((h _).mp hmem)⟩
          rw [if_congr hiff rfl rfl, anyExt h]
        · rw [if_neg hn, if_neg hn]
      · rw [if_neg ht, if_neg ht]
  · rw [if_neg hk, if_neg hk]

theorem findDiff_ext (g : Graph) (names : List Str) {ex1 ex2 : List Str}
    (h : ∀ x, x ∈ ex1 ↔ x ∈ ex2) :
    findDifferentiatingSymptoms g names ex1 = findDifferentiatingSymptoms g names ex2 := by
  have hL : ∀ y, y ∈ ex1.map (fun s => cleanSymptomText (lowerStr s)) ↔
      y ∈ ex2.map (fun s => cleanSymptomText (lowerStr s)) := by
    intro y
    simp only [List.mem_map]
    constructor
    · rintro ⟨x, hx, rfl⟩
      exact ⟨x, (h x).mp hx, rfl⟩
    · rintro ⟨x, hx, rfl⟩
      exact ⟨x, (h x).mpr hx, rfl⟩
  have hfun : diffGatherStep g (ex1.map (fun s => cleanSymptomText (lowerStr s))) =
      diffGatherStep g (ex2.map (fun s => cleanSymptomText (lowerStr s))) := by
    funext dn m r
    unfold diffGatherStep
    rw [diffSymptomOf_ext hL]
  unfold findDifferentiatingSymptoms
  by_cases hnm : names = []
  · rw [if_pos hnm, if_pos hnm]
  · rw [if_neg hnm, if_neg hnm]
    simp only []
    rw [hfun]

theorem bestStep_ext {nn : ℕ} {ex1 ex2 : List Str} (h : ∀ x, x ∈ ex1 ↔ x ∈ ex2) :
    bestStep nn ex1 = bestStep nn ex2 := by
  funext acc r
  unfold bestStep
  by_cases hex : stripWs (lowerStr r.symptom) ∈ ex1
  · rw [if_pos hex, if_pos ((h _).mp hex)]
  · rw [if_neg hex, if_neg (fun hc => hex ((h _).mpr hc))]

/-- C10: the differentiator is a deterministic function of its inputs: its
candidate list is totally ordered by (count descending, symptom name
ascending); the selection depends on the exclusion set only through
membership, so any two lists representing the same set give identical
results at both the connector and the engine layer; and the spec's
scenario-3 score tie (stunted growth vs white powdery coating, both 1.1)
resolves to `stunted growth`, the earlier symptom in that fixed order. -/
theorem C10_deterministic_selection :
    (∀ (g : Graph) (names excluded : List Str),
      List.Sorted diffRel (findDifferentiatingSymptoms g names excluded)) ∧
    (∀ (g : Graph) (names : List Str) (ex1 ex2 : List Str),
      (∀ x, x ∈ ex1 ↔ x ∈ ex2) →
      findDifferentiatingSymptoms g names ex1 = findDifferentiatingSymptoms g names ex2) ∧
    (∀ (g : Graph) (possible : List DiseaseResult) (c1 r1 a1 c2 r2 a2 : List Str),
      (∀ x, x ∈ allExcludedOf c1 r1 a1 ↔ x ∈ allExcludedOf c2 r2 a2) →
      findBestSymptom g possible c1 r1 a1 = findBestSymptom g possible c2 r2 a2) ∧
    findBestSymptom sampleGraph scenario2Possible ["yellowing leaves".data] [] [] =
      some "stunted growth".data := by
  refine ⟨?_, ?_, ?_, by decide⟩
  · intro g names excluded
    unfold findDifferentiatingSymptoms
    split
    · exact List.sorted_nil
    · exact (List.sorted_insertionSort diffRel _).sublist (List.take_sublist _ _)
  · intro g names ex1 ex2 h
    exact findDiff_ext g names h
  · intro g possible c1 r1 a1 c2 r2 a2 hiff
    unfold findBestSymptom
    by_cases hp : possible = []
    · rw [if_pos hp, if_pos hp]
    · rw [if_neg hp, if_neg hp]
      simp only []
      rw [findDiff_ext g ((possible.take 5).map (fun d => d.disease)) hiff]
      unfold bestSymptomFold
      rw [bestStep_ext hiff]

/-- Witness for `C10_deterministic_selection`: a duplicated exclusion list
selects exactly like the deduplicated one. -/
theorem C10_deterministic_selection_witness :
    findBestSymptom sampleGraph scenario2Possible
        ["yellowing leaves".data, "yellowing leaves".data] [] [] =
      findBestSymptom sampleGraph scenario2Possible ["yellowing leaves".data] [] [] :=
  C10_deterministic_selection.2.2.1 sampleGraph scenario2Possible
    ["yellowing leaves".data, "yellowing leaves".data] [] [] ["yellowing leaves".data] [] []
    (by intro x; simp [allExcludedOf])

/-! ## Engine-turn theorems -/

/-- C2 counterexample: with confirmed = `{brown spots}` exactly one
disease matches on the sample graph, but `should_diagnose` gates every
stop rule behind `len(confirmed) >= 2` and returns none, so the
exactly-one-candidate stop condition does not fire on turn 1 and the
turn-1 outcome is not the `IMMEDIATE DIAGNOSIS` return. -/
theorem C2_counterexample :
    (engineFindDiseases sampleGraph ["brown spots".data]).length = 1 ∧
    shouldDiagnose sampleGraph ["brown spots".data] = none ∧
    (firstTurn sampleGraph "brown spots".data).1.isImmediateDiag = false := by
  refine ⟨by decide, by decide, by decide⟩

/-- C2 amended: on the sample graph with first input `brown spots`,
exactly one disease (Bacterial Leaf Spot) matches, and the engine still
returns a diagnosis on turn 1 rather than a follow-up question — but via
the no-more-questions forced path (`FINAL DIAGNOSIS`, the only remaining
symptom `leaf drop` scores 0), not via the exactly-one-candidate stop
condition, which cannot fire with fewer than 2 confirmed symptoms. -/
theorem C2_amended :
    (engineFindDiseases sampleGraph ["brown spots".data]).length = 1 ∧
    (engineFindDiseases sampleGraph ["brown spots".data]).map (fun r => r.disease) =
      ["Bacterial Leaf Spot".data] ∧
    (firstTurn sampleGraph "brown spots".data).1.isFinalDiag = true ∧
    (firstTurn sampleGraph "brown spots".data).1.diagName =
      some "Bacterial Leaf Spot".data ∧
    (firstTurn sampleGraph "brown spots".data).1.isQuestion = false := by
  refine ⟨by decide, by decide, by decide, by decide, by decide⟩

theorem continueTurn_confirmed (g : Graph) (st : EngineState)
    (possible : List DiseaseResult) :
    (continueTurn g st possible).2.confirmed = st.confirmed := by
  unfold continueTurn
  cases findBestSymptom g possible st.confirmed st.ruledOut st.asked with
  | some s => rfl
  | none =>
    cases possible with
    | nil => rfl
    | cons top rest => rfl

theorem turnAfterUpdate_confirmed (g : Graph) (st1 : EngineState) :
    (turnAfterUpdate g st1).2.confirmed = st1.confirmed := by
  unfold turnAfterUpdate
  cases shouldDiagnose g st1.confirmed with
  | some d => rfl
  | none =>
    cases engineFindDiseases g st1.confirmed with
    | nil => exact continueTurn_confirmed g st1 []
    | cons top rest =>
      show (if 4 ≤ st1.confirmed.length then (TurnOutcome.forcedDiag top, st1)
        else continueTurn g st1 (top :: rest)).2.confirmed = st1.confirmed
      by_cases h4 : 4 ≤ st1.confirmed.length
      · rw [if_pos h4]
      · rw [if_neg h4]
        exact continueTurn_confirmed g st1 (top :: rest)

theorem turnAfterUpdate_four (g : Graph) (st1 : EngineState)
    (h4 : 4 ≤ st1.confirmed.length) :
    (turnAfterUpdate g st1).1.isQuestion = false ∧
    (engineFindDiseases g st1.confirmed ≠ [] →
      (turnAfterUpdate g st1).1.isDiagnosis = true) := by
  unfold turnAfterUpdate
  cases shouldDiagnose g st1.confirmed with
  | some d => exact ⟨rfl, fun _ => rfl⟩
  | none =>
    cases hp : engineFindDiseases g st1.confirmed with
    | nil =>
      have hc : continueTurn g st1 [] = (.needMore, st1) := by
        unfold continueTurn findBestSymptom
        rw [if_pos rfl]
      rw [hc]
      exact ⟨rfl, fun hne => absurd rfl hne⟩
    | cons top rest =>
      show ((if 4 ≤ st1.confirmed.length then (TurnOutcome.forcedDiag top, st1)
          else continueTurn g st1 (top :: rest)).1.isQuestion = false) ∧
        ((top :: rest : List DiseaseResult) ≠ [] →
          (if 4 ≤ st1.confirmed.length then (TurnOutcome.forcedDiag top, st1)
            else continueTurn g st1 (top :: rest)).1.isDiagnosis = true)
      rw [if_pos h4]
      exact ⟨rfl, fun _ => rfl⟩

/-- C7 counterexample: on the empty graph, a fourth confirmed symptom
leaves the candidate list empty, so no forced stop happens: the engine
emits the ask-for-more prompt and stays in collection mode with 4
confirmed symptoms, instead of emitting a diagnosis. -/
theorem C7_counterexample :
    (subsequentTurn blankGraph threeConfirmedState "d".data).2.confirmed.length = 4 ∧
    (subsequentTurn blankGraph threeConfirmedState "d".data).1 = .needMore ∧
    (subsequentTurn blankGraph threeConfirmedState "d".data).1.isDiagnosis = false := by
  refine ⟨by decide, by decide, by decide⟩

/-- C7 amended: whenever a follow-up turn leaves at least 4 confirmed
symptoms, the engine never asks another differentiating question; and
whenever the candidate list is additionally non-empty, the turn emits a
diagnosis (via `should_diagnose` or the forced stop).  With no
candidates at all the engine instead returns the ask-for-more prompt and
stays in collection mode (`C7_counterexample`). -/
theorem C7_amended (g : Graph) (st : EngineState) (input : Str)
    (h4 : 4 ≤ (subsequentTurn g st input).2.confirmed.length) :
    (subsequentTurn g st input).1.isQuestion = false ∧
    (engineFindDiseases g (subsequentTurn g st input).2.confirmed ≠ [] →
      (subsequentTurn g st input).1.isDiagnosis = true) := by
  unfold subsequentTurn at h4 ⊢
  rw [turnAfterUpdate_confirmed] at h4
  obtain ⟨hq, hd⟩ := turnAfterUpdate_four g (updateState st (stripWs input)) h4
  refine ⟨hq, ?_⟩
  rw [turnAfterUpdate_confirmed]
  exact hd

/-- Witness for `C7_amended`: a fourth unmatched symptom on top of both
Bacterial Leaf Spot symptoms yields a diagnosis, not a question. -/
theorem C7_amended_witness :
    (subsequentTurn sampleGraph blsPlusNoiseState "x".data).1.isQuestion = false ∧
    (subsequentTurn sampleGraph blsPlusNoiseState "x".data).1.isDiagnosis = true := by
  have h := C7_amended sampleGraph blsPlusNoiseState "x".data (by decide)
  exact ⟨h.1, h.2 (by decide)⟩

/-- C8: every failure of the text-generation call — modelled as the
`Except.error` outcome carrying the exception text, exactly what the
`except` clause of `generate_summary` receives — is returned as the
descriptive string `"Error generating summary: ..."` rather than
propagated, and a diagnosing turn still completes, embedding that string
as the diagnosis text of its response (shown for all four diagnosing
returns of `process_user_input`, and end-to-end for the sample turn-1
diagnosis). -/
theorem C8_error_containment :
    (∀ e : Str, generateSummary (Except.error e) = "Error generating summary: ".data ++ e) ∧
    (∀ (e : Str) (d : DiseaseResult),
      renderOutcome (.finalDiag d) (Except.error e) =
        "🏆 FINAL DIAGNOSIS!\n\n".data ++ ("Error generating summary: ".data ++ e) ∧
      renderOutcome (.completeDiag d) (Except.error e) =
        "🏆 DIAGNOSIS COMPLETE!\n\n".data ++ ("Error generating summary: ".data ++ e) ∧
      renderOutcome (.forcedDiag d) (Except.error e) =
        "🏆 DIAGNOSIS (Analysis Complete)!\n\n".data ++
          ("Error generating summary: ".data ++ e) ∧
      renderOutcome (.immediateDiag d) (Except.error e) =
        "🏆 IMMEDIATE DIAGNOSIS!\n\n".data ++ ("Error generating summary: ".data ++ e)) ∧
    (∀ e : Str,
      renderOutcome (firstTurn sampleGraph "brown spots".data).1 (Except.error e) =
        "🏆 FINAL DIAGNOSIS!\n\n".data ++ ("Error generating summary: ".data ++ e)) := by
  refine ⟨fun e => rfl, fun e d => ⟨rfl, rfl, rfl, rfl⟩, fun e => ?_⟩
  have h1 : (firstTurn sampleGraph "brown spots".data).1 =
      TurnOutcome.finalDiag brownSpotsRow := by decide
  rw [h1]
  rfl
